import Mathlib

/-!
Verification of the MOI (Movement of Interest) matching engine and the video/image
reader iterators of the RnT-TFE repository, shallowly embedded from
`src/tss/camera/moi.py`, `src/tss/io/video.py` and `src/tss/io/image.py`.
Floating point values are embedded as rationals; numpy point arrays as lists of
rational pairs; Python `None` as `Option`; raised exceptions as `Except`.
-/

namespace RnT

/-- A 2-D point; coordinates are embedded as rationals. -/
abbrev Pt := ℚ × ℚ

/-- A bounding box given as `[x1, y1, x2, y2]` (`bbox_xyxy` in `moi.py`). -/
structure Bbox where
  x1 : ℚ
  y1 : ℚ
  x2 : ℚ
  y2 : ℚ
deriving DecidableEq

/-- Cross product of the vectors `b - a` and `p - a`. -/
def cross (a b p : Pt) : ℚ :=
  (b.1 - a.1) * (p.2 - a.2) - (b.2 - a.2) * (p.1 - a.1)

/-- Whether `p` lies on the closed segment from `a` to `b`. -/
def onSegment (a b p : Pt) : Bool :=
  decide (cross a b p = 0 ∧ min a.1 b.1 ≤ p.1 ∧ p.1 ≤ max a.1 b.1 ∧
          min a.2 b.2 ≤ p.2 ∧ p.2 ≤ max a.2 b.2)

/-- Whether the edge `e` crosses the horizontal ray going right from `p`
(standard crossing-number rule handling vertex cases). -/
def crossesRay (p : Pt) (e : Pt × Pt) : Bool :=
  decide ((e.1.2 ≤ p.2 ∧ p.2 < e.2.2 ∧ 0 < cross e.1 e.2 p) ∨
          (e.2.2 ≤ p.2 ∧ p.2 < e.1.2 ∧ cross e.1 e.2 p < 0))

/-- The closed edge list of a polygon given by its vertex list: each vertex paired
with its cyclic successor. -/
def polyEdges (ps : List Pt) : List (Pt × Pt) :=
  ps.zip (ps.drop 1 ++ ps.take 1)

/-- Modelled from the spec: `cv2.pointPolygonTest` is external to the repository; the
spec describes it as a "standard ray-casting / winding predicate returning positive =
inside, zero = on edge, negative = outside".  Returns `0` when the point lies on an
edge, `1` when strictly inside (odd crossing number), `-1` otherwise. -/
def pointPolygonTest (ps : List Pt) (p : Pt) : Int :=
  if (polyEdges ps).any (fun e => onSegment e.1 e.2 p) then 0
  else if ((polyEdges ps).countP (crossesRay p)) % 2 = 1 then 1
  else -1

/-- Movement of Interest (`class MOI` in `src/tss/camera/moi.py`).  `points` is the
point array after the setter's conversion; `distance_function` is the callable
resolved by `get_distance_function` and stored on the object. -/
structure MOI where
  uuid : Nat
  points : List Pt
  shape_type : String
  distance_threshold : ℚ
  angle_threshold : ℚ
  distance_function : List Pt → List Pt → ℚ

/-- Conversion of one raw `[x, y]` row of the configured points into a point
(used after construction has validated the row's length). -/
def rowToPt (r : List ℚ) : Pt :=
  (r.headD 0, (r.drop 1).headD 0)

/-- Construction of an `MOI` (`MOI.__init__` in `moi.py`): construction fails when
`points` is absent or when the validation
`all(len(track) >= 2 for track in self.points)` fails, where the iteration runs over
the rows of the points array; otherwise the object is built. -/
def mkMOI (uuid : Nat) (points : Option (List (List ℚ))) (shape_type : String)
    (distance_threshold : ℚ) (angle_threshold : ℚ)
    (distance_function : List Pt → List Pt → ℚ) : Except String MOI :=
  match points with
  | none => .error "Insufficient number of points in the moi's track."
  | some ps =>
    if ps.all (fun track => decide (2 ≤ track.length)) then
      .ok { uuid := uuid, points := ps.map rowToPt, shape_type := shape_type,
            distance_threshold := distance_threshold,
            angle_threshold := angle_threshold,
            distance_function := distance_function }
    else
      .error "Insufficient number of points in the moi's track."

/-- `MOI.distances_with_track`: the configured distance between the MOI's points and
the object's track; `none` when it exceeds the distance threshold. -/
def MOI.distances_with_track (m : MOI) (object_track : List Pt) : Option ℚ :=
  let distance := m.distance_function m.points object_track
  if m.distance_threshold < distance then none else some distance

/-- `MOI.angles_with_track`: the angle between the MOI's points and the object's
track; `none` when it exceeds the angle threshold.  `angleF` embeds the module-level
`angle_between_arrays` function. -/
def MOI.angles_with_track (m : MOI) (angleF : List Pt → List Pt → ℚ)
    (object_track : List Pt) : Option ℚ :=
  let angle := angleF m.points object_track
  if m.angle_threshold < angle then none else some angle

/-- `MOI.is_center_in_or_touch_moi`: the point-in-polygon test applied to the center
of the bounding box. -/
def MOI.is_center_in_or_touch_moi (m : MOI) (bbox : Bbox) : Int :=
  let c_x := (bbox.x1 + bbox.x2) / 2
  let c_y := (bbox.y1 + bbox.y2) / 2
  pointPolygonTest m.points (c_x, c_y)

/-- `MOI.find_moi_for_bbox`: return the uuid of the first MOI whose test on the box
center is strictly positive, `none` when none is. -/
def MOI.find_moi_for_bbox (bbox : Bbox) (mois : List MOI) : Option Nat :=
  match mois with
  | [] => none
  | m :: rest =>
    if 0 < m.is_center_in_or_touch_moi bbox then some m.uuid
    else MOI.find_moi_for_bbox bbox rest

/-- One step of the running-minimum scan in `MOI.best_matched_moi`: skip entries
whose distance or angle is `none`; keep the current minimum only when it is strictly
smaller than the new distance, otherwise take the new entry. -/
def bmmStep (acc : Option Nat × Option ℚ) (x : MOI × Option ℚ × Option ℚ) :
    Option Nat × Option ℚ :=
  match x.2.1, x.2.2 with
  | some d, some _ =>
    match acc.2 with
    | some md => if md < d then acc else (some x.1.uuid, some d)
    | none => (some x.1.uuid, some d)
  | _, _ => acc

/-- `MOI.best_matched_moi`: compute the distance and angle of each MOI with the
track, then scan them with the running minimum of `bmmStep`. -/
def MOI.best_matched_moi (angleF : List Pt → List Pt → ℚ)
    (object_track : List Pt) (mois : List MOI) : Option Nat × Option ℚ :=
  let distances := mois.map (fun m => m.distances_with_track object_track)
  let angles := mois.map (fun m => m.angles_with_track angleF object_track)
  (mois.zip (distances.zip angles)).foldl bmmStep (none, none)

/-- Modelled from the spec: the tracked object (`GMO` of `tss.road_objects`, not under
`src/`) — "exposes a current bounding box, an ordered trajectory and a nullable
`assignedMOI` field"; only the fields read or written by the matcher are embedded. -/
structure GMO where
  moi_uuid : Option Nat
  trajectory : List Pt
  current_bbox : Bbox

/-- `MOI.associate_moving_objects_to_mois`: partition the MOIs by shape type and, for
every object whose `moi_uuid` is still `none`, write the polygon first-match or the
linestrip best-match result.  The in-place mutation of the Python code is embedded as
returning the updated object list. -/
def associate_moving_objects_to_mois (angleF : List Pt → List Pt → ℚ)
    (gmos : List GMO) (mois : List MOI) (shape_type : String) : List GMO :=
  if gmos.length ≤ 0 then gmos else
  let polygon_mois := mois.filter (fun m => m.shape_type == "polygon")
  let linestrip_mois := mois.filter (fun m => m.shape_type == "linestrip")
  if shape_type = "polygon" then
    gmos.map (fun o =>
      if o.moi_uuid = none then
        { o with moi_uuid := MOI.find_moi_for_bbox o.current_bbox polygon_mois }
      else o)
  else if shape_type = "linestrip" then
    gmos.map (fun o =>
      if o.moi_uuid = none then
        { o with moi_uuid :=
            (MOI.best_matched_moi angleF o.trajectory linestrip_mois).1 }
      else o)
  else gmos

/-- One raw MOI record of the configuration resource (spec §6: fields `uuid`,
`points` as a list of `[x, y]` pairs, `shape_type`, distance function and the two
thresholds). -/
structure MOIData where
  uuid : Nat
  points : Option (List (List ℚ))
  shape_type : String
  distance_threshold : ℚ
  angle_threshold : ℚ
  distance_function : List Pt → List Pt → ℚ

/-- Modelled from the spec: the MOI configuration resource read by
`MOI.load_mois_from_file`; the helpers `is_json_file` and `parse_config_from_json`
(`tss.utils`) are not under `src/`, so the resource records whether it is present,
whether it is recognized structured (JSON) data, and the parsed MOI records. -/
structure Resource where
  present : Bool
  is_json : Bool
  moi : List MOIData

/-- Modelled from the spec: `is_json_file` (`tss.utils`, not under `src/`) — true
exactly when the resource is present and is a recognized structured (JSON) file. -/
def is_json_file (r : Resource) : Bool :=
  r.present && r.is_json

/-- `MOI.load_mois_from_file`: fail when `is_json_file` rejects the resource,
otherwise construct one `MOI` per record (a failing construction propagates). -/
def load_mois_from_file (r : Resource) : Except String (List MOI) :=
  if is_json_file r then
    r.moi.mapM (fun d => mkMOI d.uuid d.points d.shape_type d.distance_threshold
      d.angle_threshold d.distance_function)
  else
    .error "File not found or given a wrong file type."

/-- State of a `VideoReader` (`src/tss/io/video.py`): the total frame count
(`-1` for an online stream), the cursor and the batch size.  The OpenCV capture
handle and the decoded images are external and not embedded. -/
structure VideoReader where
  num_frames : Int
  frame_idx : Int
  batch_size : Nat
deriving DecidableEq

/-- Construction of a `VideoReader` with `stream` given (`VideoReader.__init__`
followed by `create_online_stream`): the stream branch never touches `num_frames`,
which keeps its initial value `-1`, and fails when the stream has a wrong format.
`streamOk` embeds `is_video_stream` (`tss.utils`, not under `src/`). -/
def mkVideoReaderOnline (batch_size : Nat) (streamOk : Bool) :
    Except String VideoReader :=
  if streamOk then .ok { num_frames := -1, frame_idx := 0, batch_size := batch_size }
  else .error "not a corrected stream format"

/-- The batch loop of `VideoReader.__next__`: up to `n` iterations, each first
incrementing the cursor, breaking when it reaches `nf`, otherwise recording the
frame index.  Returns the recorded indices and the final cursor. -/
def vrLoop : Nat → Int → Int → List Int × Int
  | 0, idx, _ => ([], idx)
  | n + 1, idx, nf =>
    if idx + 1 ≥ nf then ([], idx + 1)
    else ((idx + 1) :: (vrLoop n (idx + 1) nf).1, (vrLoop n (idx + 1) nf).2)

/-- `VideoReader.__next__`: `none` embeds `StopIteration`, raised when the cursor
has reached the frame count; otherwise the batch of frame indices and the updated
reader are returned. -/
def vrNext (s : VideoReader) : Option (List Int × VideoReader) :=
  if s.frame_idx ≥ s.num_frames then none
  else
    let r := vrLoop s.batch_size s.frame_idx s.num_frames
    some (r.1, { s with frame_idx := r.2 })

/-- State of an `ImageReader` (`src/tss/io/image.py`): the number of images, the
batch size and the cursor (set to `0` by `__iter__`). -/
structure ImageReader where
  number_of_frame : Nat
  batch_size : Nat
  frame_idx : Nat
deriving DecidableEq

/-- The batch loop of `ImageReader.__next__`: up to `n` iterations; each iteration
that passes the `frame_idx < number_of_frame` guard increments the cursor and then
subscripts `self.images[self.frame_idx]` with the incremented value.  Returns the
list of indices used to subscript `self.images` and the final cursor (once the
guard fails it keeps failing, so the remaining iterations are the identity). -/
def irLoop : Nat → Nat → Nat → List Nat × Nat
  | 0, idx, _ => ([], idx)
  | n + 1, idx, nof =>
    if idx < nof then ((idx + 1) :: (irLoop n (idx + 1) nof).1, (irLoop n (idx + 1) nof).2)
    else ([], idx)

/-- `ImageReader.__next__`: the indices used to subscript the image list together
with the updated reader. -/
def irNext (s : ImageReader) : List Nat × ImageReader :=
  let r := irLoop s.batch_size s.frame_idx s.number_of_frame
  (r.1, { s with frame_idx := r.2 })

/-- The candidate entry an MOI contributes to the scan of `best_matched_moi`: its
uuid and distance when both the distance and the angle pass their thresholds,
`none` otherwise. -/
def candOf (angleF : List Pt → List Pt → ℚ) (track : List Pt) (m : MOI) :
    Option (Nat × ℚ) :=
  match m.distances_with_track track, m.angles_with_track angleF track with
  | some d, some _ => some (m.uuid, d)
  | _, _ => none

/-- The candidates of a scan of `best_matched_moi`, in registry order. -/
def candidates (angleF : List Pt → List Pt → ℚ) (track : List Pt)
    (mois : List MOI) : List (Nat × ℚ) :=
  mois.filterMap (candOf angleF track)

/-- The running-minimum step restricted to candidate entries. -/
def candStep (acc : Option Nat × Option ℚ) (c : Nat × ℚ) : Option Nat × Option ℚ :=
  match acc.2 with
  | some md => if md < c.2 then acc else (some c.1, some c.2)
  | none => (some c.1, some c.2)

/-- A concrete square polygon MOI used for concrete evaluations. -/
def sqMOI : MOI :=
  { uuid := 3, points := [(0, 0), (4, 0), (4, 4), (0, 4)], shape_type := "polygon",
    distance_threshold := 300, angle_threshold := 45,
    distance_function := fun _ _ => 0 }

/-- A concrete linestrip MOI with uuid 1 and constant distance 5. -/
def tieMOI1 : MOI :=
  { uuid := 1, points := [(0, 0), (100, 0)], shape_type := "linestrip",
    distance_threshold := 300, angle_threshold := 45,
    distance_function := fun _ _ => 5 }

/-- A concrete linestrip MOI with uuid 2 and constant distance 5, identical to
`tieMOI1` except for its uuid. -/
def tieMOI2 : MOI :=
  { uuid := 2, points := [(0, 0), (100, 0)], shape_type := "linestrip",
    distance_threshold := 300, angle_threshold := 45,
    distance_function := fun _ _ => 5 }

/-- A concrete tracked object that already has an assigned MOI. -/
def assignedGMO : GMO :=
  { moi_uuid := some 7, trajectory := [], current_bbox := ⟨0, 0, 0, 0⟩ }

/-- A concrete tracked object with no assigned MOI. -/
def freeGMO : GMO :=
  { moi_uuid := none, trajectory := [(0, 0)], current_bbox := ⟨0, 0, 0, 0⟩ }

/-- A concrete linestrip MOI whose constant distance 1000 exceeds its distance
threshold 300, so it can never be a candidate. -/
def farMOI : MOI :=
  { uuid := 9, points := [(0, 0), (1, 0)], shape_type := "linestrip",
    distance_threshold := 300, angle_threshold := 45,
    distance_function := fun _ _ => 1000 }

end RnT

namespace RnT

/-- C2 counterexample: a bounding box whose center `(2, 0)` lies on the bottom edge
of the square polygon MOI has point-in-polygon test `0`, which satisfies `≥ 0`, yet
`find_moi_for_bbox` returns `none` — the code matches only strictly positive tests,
refuting the claim that a zero (on-edge) test counts as a match. -/
theorem c2_on_edge_counterexample :
    sqMOI.is_center_in_or_touch_moi ⟨0, -2, 4, 2⟩ = 0 ∧
    MOI.find_moi_for_bbox ⟨0, -2, 4, 2⟩ [sqMOI] = none := by
  constructor
  · simp only [MOI.is_center_in_or_touch_moi, sqMOI, pointPolygonTest, polyEdges,
      onSegment, crossesRay, cross]
    norm_num
  · simp only [MOI.find_moi_for_bbox, MOI.is_center_in_or_touch_moi, sqMOI,
      pointPolygonTest, polyEdges, onSegment, crossesRay, cross]
    norm_num

/-- C2 (amended): `find_moi_for_bbox` returns the uuid of the FIRST polygon in
registry order whose point-in-polygon test on the box center is strictly positive
(`> 0`), and returns `none` exactly when no polygon's test is `> 0`; later polygons
are never considered once one matches.  A zero (on-edge) test does not match. -/
theorem c2_find_moi_first_strict_match (bbox : Bbox) (mois : List MOI) :
    MOI.find_moi_for_bbox bbox mois =
      (mois.find? (fun m => decide (0 < m.is_center_in_or_touch_moi bbox))).map
        MOI.uuid := by
  induction mois with
  | nil => rfl
  | cons m t ih =>
    by_cases h : 0 < m.is_center_in_or_touch_moi bbox
    · rw [MOI.find_moi_for_bbox, if_pos h,
        List.find?_cons_of_pos _ (by simpa using h)]
      rfl
    · rw [MOI.find_moi_for_bbox, if_neg h,
        List.find?_cons_of_neg _ (by simpa using h), ih]

/-- C1 counterexample: two linestrip MOIs that both pass their thresholds with the
same distance `5`; `best_matched_moi` selects the LATER MOI (uuid 2), not the
earlier one (uuid 1) as the claim states. -/
theorem c1_tie_counterexample :
    tieMOI1.distances_with_track [((0 : ℚ), (0 : ℚ))] = some 5 ∧
    tieMOI2.distances_with_track [((0 : ℚ), (0 : ℚ))] = some 5 ∧
    tieMOI1.angles_with_track (fun _ _ => 0) [((0 : ℚ), (0 : ℚ))] = some 0 ∧
    tieMOI2.angles_with_track (fun _ _ => 0) [((0 : ℚ), (0 : ℚ))] = some 0 ∧
    (MOI.best_matched_moi (fun _ _ => 0) [((0 : ℚ), (0 : ℚ))]
        [tieMOI1, tieMOI2]).1 ≠ some tieMOI1.uuid ∧
    (MOI.best_matched_moi (fun _ _ => 0) [((0 : ℚ), (0 : ℚ))]
        [tieMOI1, tieMOI2]).1 = some tieMOI2.uuid := by
  decide

/-- C1 (amended): when two candidate MOIs (both passing their distance and angle
thresholds) have exactly equal distance, the MOI appearing LATER in the registry's
ordered sequence is the one selected, because the running minimum is updated
whenever the new distance is not strictly larger. -/
theorem c1_tie_selects_later (angleF : List Pt → List Pt → ℚ) (track : List Pt)
    (m1 m2 : MOI) (d : ℚ)
    (h1 : m1.distances_with_track track = some d)
    (h2 : m2.distances_with_track track = some d)
    (a1 : m1.angles_with_track angleF track ≠ none)
    (a2 : m2.angles_with_track angleF track ≠ none) :
    (MOI.best_matched_moi angleF track [m1, m2]).1 = some m2.uuid := by
  obtain ⟨x1, hx1⟩ := Option.ne_none_iff_exists'.mp a1
  obtain ⟨x2, hx2⟩ := Option.ne_none_iff_exists'.mp a2
  simp [MOI.best_matched_moi, bmmStep, h1, h2, hx1, hx2]

/-- C1 witness: the amended tie-break theorem applied to the two concrete tied MOIs
selects uuid 2, the later one. -/
theorem c1_tie_selects_later_witness :
    tieMOI1.distances_with_track [((0 : ℚ), (0 : ℚ))] = some 5 ∧
    tieMOI2.distances_with_track [((0 : ℚ), (0 : ℚ))] = some 5 ∧
    tieMOI1.angles_with_track (fun _ _ => 0) [((0 : ℚ), (0 : ℚ))] ≠ none ∧
    tieMOI2.angles_with_track (fun _ _ => 0) [((0 : ℚ), (0 : ℚ))] ≠ none ∧
    (MOI.best_matched_moi (fun _ _ => 0) [((0 : ℚ), (0 : ℚ))]
        [tieMOI1, tieMOI2]).1 = some tieMOI2.uuid :=
  ⟨by decide, by decide, by decide, by decide,
    c1_tie_selects_later (fun _ _ => 0) [((0 : ℚ), (0 : ℚ))] tieMOI1 tieMOI2 5
      (by decide) (by decide) (by decide) (by decide)⟩

/-- One step of `best_matched_moi` on an MOI's own distance and angle coincides with
the candidate step on the MOI's candidate entry when it has one, and is the identity
otherwise. -/
theorem bmmStep_eq_candOf (angleF : List Pt → List Pt → ℚ) (track : List Pt)
    (acc : Option Nat × Option ℚ) (m : MOI) :
    bmmStep acc (m, m.distances_with_track track,
        m.angles_with_track angleF track) =
      match candOf angleF track m with
      | some c => candStep acc c
      | none => acc := by
  unfold bmmStep candOf candStep
  cases m.distances_with_track track <;>
    cases m.angles_with_track angleF track <;> rfl

/-- The zip-and-scan of `best_matched_moi` equals the fold of `candStep` over the
candidate list, for every starting accumulator. -/
theorem bmm_zip_fold (angleF : List Pt → List Pt → ℚ) (track : List Pt) :
    ∀ (mois : List MOI) (acc : Option Nat × Option ℚ),
      (mois.zip ((mois.map fun m => m.distances_with_track track).zip
          (mois.map fun m => m.angles_with_track angleF track))).foldl bmmStep acc
        = (candidates angleF track mois).foldl candStep acc := by
  intro mois
  induction mois with
  | nil => intro acc; rfl
  | cons m t ih =>
    intro acc
    simp only [List.map_cons, List.zip_cons_cons, List.foldl_cons, candidates,
      List.filterMap_cons]
    rw [bmmStep_eq_candOf]
    cases hc : candOf angleF track m with
    | none => simpa only [candidates] using ih acc
    | some c =>
      simp only [List.foldl_cons]
      simpa only [candidates] using ih (candStep acc c)

/-- `best_matched_moi` is the fold of `candStep` over the candidate list. -/
theorem bmm_eq_candFold (angleF : List Pt → List Pt → ℚ) (track : List Pt)
    (mois : List MOI) :
    MOI.best_matched_moi angleF track mois =
      (candidates angleF track mois).foldl candStep (none, none) := by
  unfold MOI.best_matched_moi
  exact bmm_zip_fold angleF track mois (none, none)

/-- The fold of `candStep` starting from a selected entry yields a selected entry
attaining the minimum distance among the start entry and the scanned entries. -/
theorem candFold_min :
    ∀ (l : List (Nat × ℚ)) (u0 : Nat) (d0 : ℚ),
      ∃ u d, l.foldl candStep (some u0, some d0) = (some u, some d) ∧
        (u, d) ∈ (u0, d0) :: l ∧ ∀ p ∈ (u0, d0) :: l, d ≤ p.2 := by
  intro l
  induction l with
  | nil =>
    intro u0 d0
    exact ⟨u0, d0, rfl, List.mem_cons_self _ _, by
      intro p hp
      rcases List.mem_cons.mp hp with h | h
      · rw [h]
      · simp at h⟩
  | cons c t ih =>
    intro u0 d0
    obtain ⟨u1, d1⟩ := c
    rw [List.foldl_cons]
    by_cases h : d0 < d1
    · have hs : candStep (some u0, some d0) (u1, d1) = (some u0, some d0) := by
        unfold candStep; simp [h]
      rw [hs]
      obtain ⟨u, d, heq, hmem, hle⟩ := ih u0 d0
      have hdd0 : d ≤ d0 := hle (u0, d0) (List.mem_cons_self _ _)
      refine ⟨u, d, heq, ?_, ?_⟩
      · rcases List.mem_cons.mp hmem with h0 | ht
        · exact h0 ▸ List.mem_cons_self _ _
        · exact List.mem_cons_of_mem _ (List.mem_cons_of_mem _ ht)
      · intro p hp
        rcases List.mem_cons.mp hp with h0 | hp2
        · rw [h0]; exact hdd0
        · rcases List.mem_cons.mp hp2 with h1 | hp3
          · rw [h1]; exact hdd0.trans h.le
          · exact hle p (List.mem_cons_of_mem _ hp3)
    · have hs : candStep (some u0, some d0) (u1, d1) = (some u1, some d1) := by
        unfold candStep; simp [h]
      rw [hs]
      obtain ⟨u, d, heq, hmem, hle⟩ := ih u1 d1
      have hdd1 : d ≤ d1 := hle (u1, d1) (List.mem_cons_self _ _)
      refine ⟨u, d, heq, ?_, ?_⟩
      · exact List.mem_cons_of_mem _ hmem
      · intro p hp
        rcases List.mem_cons.mp hp with h0 | hp2
        · rw [h0]; exact hdd1.trans (not_lt.mp h)
        · exact hle p hp2

/-- When no MOI contributes a candidate, `best_matched_moi` returns `(none, none)`. -/
theorem bmm_of_no_candidate (angleF : List Pt → List Pt → ℚ) (track : List Pt)
    (mois : List MOI)
    (h : ∀ m ∈ mois, m.distances_with_track track = none ∨
      m.angles_with_track angleF track = none) :
    MOI.best_matched_moi angleF track mois = (none, none) := by
  have hc : candidates angleF track mois = [] := by
    rw [candidates, List.filterMap_eq_nil_iff]
    intro m hm
    rcases h m hm with hd | ha
    · unfold candOf; rw [hd]
    · unfold candOf; rw [ha]; cases m.distances_with_track track <;> rfl
  rw [bmm_eq_candFold, hc]
  rfl

/-- C6: `best_matched_moi` considers only MOIs passing both the distance and the
angle threshold; when no MOI passes both it returns `(none, none)`, and otherwise it
returns `(some u, some d)` where `d` is the minimum of the candidates' distances and
`u` is the uuid of a candidate attaining that minimum. -/
theorem c6_best_matched_moi_correct (angleF : List Pt → List Pt → ℚ)
    (track : List Pt) (mois : List MOI) :
    ((∀ m ∈ mois, m.distances_with_track track = none ∨
        m.angles_with_track angleF track = none) ∧
      MOI.best_matched_moi angleF track mois = (none, none)) ∨
    (∃ u d, MOI.best_matched_moi angleF track mois = (some u, some d) ∧
      (∃ m ∈ mois, m.uuid = u ∧ m.distances_with_track track = some d ∧
        m.angles_with_track angleF track ≠ none) ∧
      ∀ m ∈ mois, ∀ d', m.distances_with_track track = some d' →
        m.angles_with_track angleF track ≠ none → d ≤ d') := by
  cases hc : candidates angleF track mois with
  | nil =>
    left
    refine ⟨?_, ?_⟩
    · intro m hm
      have hnone : candOf angleF track m = none :=
        (List.filterMap_eq_nil_iff.mp hc) m hm
      unfold candOf at hnone
      cases hd : m.distances_with_track track with
      | none => exact Or.inl rfl
      | some d =>
        cases ha : m.angles_with_track angleF track with
        | none => exact Or.inr rfl
        | some a => rw [hd, ha] at hnone; exact absurd hnone (by simp)
    · rw [bmm_eq_candFold, hc]; rfl
  | cons c t =>
    right
    obtain ⟨u1, d1⟩ := c
    have hfold : MOI.best_matched_moi angleF track mois =
        t.foldl candStep (some u1, some d1) := by
      rw [bmm_eq_candFold, hc, List.foldl_cons]; rfl
    obtain ⟨u, d, heq, hmem, hle⟩ := candFold_min t u1 d1
    have hmemc : (u, d) ∈ candidates angleF track mois := by
      rw [hc]; exact hmem
    obtain ⟨m, hm, hcand⟩ := List.mem_filterMap.mp hmemc
    refine ⟨u, d, hfold.trans heq, ⟨m, hm, ?_⟩, ?_⟩
    · unfold candOf at hcand
      cases hd : m.distances_with_track track with
      | none => rw [hd] at hcand; exact absurd hcand (by simp)
      | some d'' =>
        cases ha : m.angles_with_track angleF track with
        | none => rw [hd, ha] at hcand; exact absurd hcand (by simp)
        | some a =>
          rw [hd, ha] at hcand
          have h1 : m.uuid = u := congrArg Prod.fst (Option.some.inj hcand)
          have h2 : d'' = d := congrArg Prod.snd (Option.some.inj hcand)
          exact ⟨h1, h2 ▸ rfl, Option.some_ne_none a⟩
    · intro m' hm' d' hd' hane
      obtain ⟨a, ha⟩ := Option.ne_none_iff_exists'.mp hane
      have hin : (m'.uuid, d') ∈ candidates angleF track mois :=
        List.mem_filterMap.mpr ⟨m', hm', by unfold candOf; rw [hd', ha]⟩
      rw [hc] at hin
      exact hle (m'.uuid, d') hin

/-- C4: an object whose `moi_uuid` is already non-null is left unchanged by
`associate_moving_objects_to_mois`, for every MOI list and every shape type. -/
theorem c4_assigned_preserved (angleF : List Pt → List Pt → ℚ)
    (gmos : List GMO) (mois : List MOI) (shape_type : String) (i : Nat) (o : GMO)
    (h1 : gmos[i]? = some o) (h2 : o.moi_uuid ≠ none) :
    (associate_moving_objects_to_mois angleF gmos mois shape_type)[i]? = some o := by
  dsimp only [associate_moving_objects_to_mois]
  by_cases hg : gmos.length ≤ 0
  · rw [if_pos hg]; exact h1
  · rw [if_neg hg]
    by_cases hp : shape_type = "polygon"
    · rw [if_pos hp, List.getElem?_map, h1, Option.map_some', if_neg h2]
    · rw [if_neg hp]
      by_cases hl : shape_type = "linestrip"
      · rw [if_pos hl, List.getElem?_map, h1, Option.map_some', if_neg h2]
      · rw [if_neg hl]; exact h1

/-- C4 witness: the preservation theorem applied to a concrete already-assigned
object. -/
theorem c4_assigned_preserved_witness :
    [assignedGMO][0]? = some assignedGMO ∧ assignedGMO.moi_uuid ≠ none ∧
    (associate_moving_objects_to_mois (fun _ _ => 0) [assignedGMO] [tieMOI1]
        "linestrip")[0]? = some assignedGMO :=
  ⟨rfl, by decide,
    c4_assigned_preserved (fun _ _ => 0) [assignedGMO] [tieMOI1] "linestrip" 0
      assignedGMO rfl (by decide)⟩

/-- C5: an unassigned object for which every linestrip MOI fails its distance or
angle threshold is still unassigned after
`associate_moving_objects_to_mois` in linestrip mode (the function is total, so no
error is raised). -/
theorem c5_threshold_exclusion (angleF : List Pt → List Pt → ℚ)
    (gmos : List GMO) (mois : List MOI) (i : Nat) (o : GMO)
    (h1 : gmos[i]? = some o) (h0 : o.moi_uuid = none)
    (hall : ∀ m ∈ mois, m.shape_type = "linestrip" →
      m.distances_with_track o.trajectory = none ∨
      m.angles_with_track angleF o.trajectory = none) :
    ∃ o', (associate_moving_objects_to_mois angleF gmos mois "linestrip")[i]? =
        some o' ∧ o'.moi_uuid = none := by
  have hg : ¬ gmos.length ≤ 0 := by
    intro h
    have he : gmos = [] := List.eq_nil_of_length_eq_zero (Nat.le_zero.mp h)
    rw [he] at h1
    simp at h1
  have hb : MOI.best_matched_moi angleF o.trajectory
      (mois.filter (fun m => m.shape_type == "linestrip")) = (none, none) := by
    apply bmm_of_no_candidate
    intro m hm
    have hmf := List.mem_filter.mp hm
    exact hall m hmf.1 (by simpa using hmf.2)
  dsimp only [associate_moving_objects_to_mois]
  rw [if_neg hg, if_neg (by decide : ¬ ("linestrip" : String) = "polygon"),
    if_pos rfl, List.getElem?_map, h1, Option.map_some', if_pos h0]
  exact ⟨_, rfl, by simp [hb]⟩

/-- C5 witness: the threshold-exclusion theorem applied to a concrete unassigned
object and a concrete linestrip MOI whose distance always exceeds its threshold. -/
theorem c5_threshold_exclusion_witness :
    [freeGMO][0]? = some freeGMO ∧ freeGMO.moi_uuid = none ∧
    (∀ m ∈ [farMOI], m.shape_type = "linestrip" →
      m.distances_with_track freeGMO.trajectory = none ∨
      m.angles_with_track (fun _ _ => 0) freeGMO.trajectory = none) ∧
    ∃ o', (associate_moving_objects_to_mois (fun _ _ => 0) [freeGMO] [farMOI]
        "linestrip")[0]? = some o' ∧ o'.moi_uuid = none :=
  ⟨rfl, by decide, by decide,
    c5_threshold_exclusion (fun _ _ => 0) [freeGMO] [farMOI] 0 freeGMO rfl
      (by decide) (by decide)⟩

/-- C7: loading MOIs from a resource that is missing or not recognized structured
(JSON) data fails with the configuration error before any MOI is constructed, and
returns no MOIs. -/
theorem c7_load_fails_on_bad_resource (r : Resource)
    (h : r.present = false ∨ r.is_json = false) :
    load_mois_from_file r =
      .error "File not found or given a wrong file type." := by
  have hj : is_json_file r = false := by
    unfold is_json_file
    rcases h with h | h <;> simp [h]
  simp [load_mois_from_file, hj]

/-- C7 witness: the load-failure theorem applied to a concrete missing resource. -/
theorem c7_load_fails_on_bad_resource_witness :
    (Resource.mk false true []).present = false ∧
    load_mois_from_file (Resource.mk false true []) =
      .error "File not found or given a wrong file type." :=
  ⟨rfl, c7_load_fails_on_bad_resource (Resource.mk false true []) (Or.inl rfl)⟩

/-- C3 evaluation at the failing input: constructing an MOI whose points sequence is
the single point `[0, 0]` succeeds — the validation checks each row's own length, so
an MOI with fewer than 2 points is constructed without error, contradicting the
claim (and the construction's own error message). -/
theorem c3_single_point_moi_constructs :
    (mkMOI 1 (some [[0, 0]]) "linestrip" 300 45 (fun _ _ => 0)).map
      (fun m => m.points.length) = .ok 1 := rfl

/-- C9: a `VideoReader` constructed in online-stream mode keeps `num_frames = -1`,
and its first `__next__` raises `StopIteration` (the cursor `0` is already `≥ -1`):
iterating it yields no frame batches at all. -/
theorem c9_online_stream_empty (batch_size : Nat) (s : VideoReader)
    (h : mkVideoReaderOnline batch_size true = .ok s) :
    s.num_frames = -1 ∧ vrNext s = none := by
  have hs : s = { num_frames := -1, frame_idx := 0, batch_size := batch_size } := by
    simp only [mkVideoReaderOnline, if_true, Except.ok.injEq] at h
    exact h.symm
  subst hs
  exact ⟨rfl, rfl⟩

/-- C9 witness: the online-stream theorem applied to a concretely constructed
reader with batch size 1. -/
theorem c9_online_stream_empty_witness :
    mkVideoReaderOnline 1 true = .ok ⟨-1, 0, 1⟩ ∧
    (⟨-1, 0, 1⟩ : VideoReader).num_frames = -1 ∧ vrNext ⟨-1, 0, 1⟩ = none :=
  ⟨rfl, c9_online_stream_empty 1 ⟨-1, 0, 1⟩ rfl⟩

/-- The batch loop of `VideoReader.__next__` yields at most `n` indices, strictly
increasing, all strictly above the starting cursor and at most the final cursor,
which itself does not decrease. -/
theorem vrLoop_spec :
    ∀ (n : Nat) (idx nf : Int),
      (vrLoop n idx nf).1.length ≤ n ∧
      List.Sorted (· < ·) (vrLoop n idx nf).1 ∧
      (∀ i ∈ (vrLoop n idx nf).1, idx < i ∧ i ≤ (vrLoop n idx nf).2) ∧
      idx ≤ (vrLoop n idx nf).2 := by
  intro n
  induction n with
  | zero =>
    intro idx nf
    exact ⟨Nat.le_refl 0, List.sorted_nil, by simp [vrLoop], le_refl idx⟩
  | succ n ih =>
    intro idx nf
    by_cases h : idx + 1 ≥ nf
    · rw [vrLoop, if_pos h]
      exact ⟨Nat.zero_le _, List.sorted_nil, by simp, le_of_lt (lt_add_one idx)⟩
    · rw [vrLoop, if_neg h]
      obtain ⟨ihlen, ihsort, ihmem, ihle⟩ := ih (idx + 1) nf
      refine ⟨by simpa using Nat.succ_le_succ ihlen, ?_, ?_,
        le_trans (le_of_lt (lt_add_one idx)) ihle⟩
      · exact List.sorted_cons.mpr ⟨fun b hb => (ihmem b hb).1, ihsort⟩
      · intro i hi
        rcases List.mem_cons.mp hi with h0 | h1
        · subst h0; exact ⟨by linarith, ihle⟩
        · obtain ⟨hlt, hle2⟩ := ihmem i h1
          exact ⟨by linarith, hle2⟩

/-- C8: every batch returned by `VideoReader.__next__` holds at most `batch_size`
frame indices, the indices are strictly increasing within the batch, and every
index of the next batch is strictly larger than every index of this batch. -/
theorem c8_batch_props (s : VideoReader) (ids : List Int) (s' : VideoReader)
    (hbs : 1 ≤ s.batch_size) (h : vrNext s = some (ids, s')) :
    ids.length ≤ s.batch_size ∧ List.Sorted (· < ·) ids ∧
    ∀ ids2 s'', vrNext s' = some (ids2, s'') →
      ∀ i ∈ ids, ∀ j ∈ ids2, i < j := by
  unfold vrNext at h
  by_cases hg : s.frame_idx ≥ s.num_frames
  · rw [if_pos hg] at h; exact absurd h (by simp)
  · rw [if_neg hg] at h
    simp only [Option.some.injEq, Prod.mk.injEq] at h
    obtain ⟨hids, hs'⟩ := h
    obtain ⟨hlen, hsort, hmem, _⟩ := vrLoop_spec s.batch_size s.frame_idx s.num_frames
    refine ⟨hids ▸ hlen, hids ▸ hsort, ?_⟩
    intro ids2 s'' h2 i hi j hj
    unfold vrNext at h2
    by_cases hg2 : s'.frame_idx ≥ s'.num_frames
    · rw [if_pos hg2] at h2; exact absurd h2 (by simp)
    · rw [if_neg hg2] at h2
      simp only [Option.some.injEq, Prod.mk.injEq] at h2
      obtain ⟨hids2, _⟩ := h2
      obtain ⟨_, _, hmem2, _⟩ := vrLoop_spec s'.batch_size s'.frame_idx s'.num_frames
      have hi2 : i ≤ s'.frame_idx := by
        rw [← hs']
        exact (hmem i (by rw [hids]; exact hi)).2
      have hj2 : s'.frame_idx < j := (hmem2 j (by rw [hids2]; exact hj)).1
      linarith

/-- C8 witness: the batch-property theorem applied to a concrete offline reader
with 5 frames and batch size 2, whose first batch is `[1, 2]`. -/
theorem c8_batch_props_witness :
    1 ≤ (⟨5, 0, 2⟩ : VideoReader).batch_size ∧
    vrNext ⟨5, 0, 2⟩ = some ([1, 2], ⟨5, 2, 2⟩) ∧
    ([1, 2] : List Int).length ≤ (⟨5, 0, 2⟩ : VideoReader).batch_size ∧
    List.Sorted (· < ·) ([1, 2] : List Int) ∧
    (∀ ids2 s'', vrNext ⟨5, 2, 2⟩ = some (ids2, s'') →
      ∀ i ∈ ([1, 2] : List Int), ∀ j ∈ ids2, i < j) :=
  ⟨by decide, by decide,
    c8_batch_props ⟨5, 0, 2⟩ [1, 2] ⟨5, 2, 2⟩ (by decide) (by decide)⟩

/-- C10 evaluation at the failing input: an `ImageReader` over a single-image list
with batch size 1 subscripts `self.images` with index 1 on its first `__next__`,
which is out of range for a 1-image list (valid indices are below
`number_of_frame`), and index 0 is never used — refuting the claim that every
access is in bounds and every image is read exactly once. -/
theorem c10_image_index_out_of_bounds :
    (irNext { number_of_frame := 1, batch_size := 1, frame_idx := 0 }).1 = [1] ∧
    ∀ i ∈ (irNext { number_of_frame := 1, batch_size := 1, frame_idx := 0 }).1,
      ¬ i < ({ number_of_frame := 1, batch_size := 1, frame_idx := 0 } :
        ImageReader).number_of_frame := by
  decide

end RnT
